import Mathlib

set_option linter.unusedVariables false

/-!
Verification development for the Amundsen connector adapter
(`ingestion/src/metadata/ingestion/source/metadata/amundsen/connection.py`):
the connection factory `get_connection` and the diagnostic-step entry point
`test_connection`, together with the step-runner protocol they rely on.
-/

/-! ## String containment helpers -/

/-- Boolean check that `needle` is a prefix of `hay` (over character lists). -/
def isPrefixB : List Char → List Char → Bool
  | [], _ => true
  | _ :: _, [] => false
  | a :: as, b :: bs => if a = b then isPrefixB as bs else false

/-- Boolean check that `needle` occurs contiguously inside `hay`. -/
def isInfixB (needle : List Char) : List Char → Bool
  | [] => isPrefixB needle []
  | c :: rest => isPrefixB needle (c :: rest) || isInfixB needle rest

/-- String `hay` contains `needle` as a contiguous substring. -/
def containsSubstr (hay needle : String) : Bool :=
  isInfixB needle.data hay.data

theorem isPrefixB_append (n post : List Char) : isPrefixB n (n ++ post) = true := by
  induction n with
  | nil => rfl
  | cons a as ih => simp [isPrefixB, ih]

theorem isInfixB_of_head (n hay : List Char) (h : isPrefixB n hay = true) :
    isInfixB n hay = true := by
  cases hay with
  | nil =>
    cases n with
    | nil => rfl
    | cons a as => simp [isPrefixB] at h
  | cons c cs => simp [isInfixB, h]

theorem isInfixB_of_tail (n : List Char) (c : Char) (cs : List Char)
    (h : isInfixB n cs = true) : isInfixB n (c :: cs) = true := by
  simp [isInfixB, h]

theorem isInfixB_of_decomp (n pre post : List Char) :
    isInfixB n (pre ++ n ++ post) = true := by
  induction pre with
  | nil =>
    simp only [List.nil_append]
    exact isInfixB_of_head n (n ++ post) (isPrefixB_append n post)
  | cons a pre ih =>
    simp only [List.cons_append]
    exact isInfixB_of_tail n a (pre ++ n ++ post) ih

theorem containsSubstr_of_parts (a mid b : String) :
    containsSubstr (a ++ mid ++ b) mid = true := by
  unfold containsSubstr
  have h : (a ++ mid ++ b).data = a.data ++ mid.data ++ b.data := by
    simp [String.data_append]
  rw [h]
  exact isInfixB_of_decomp mid.data a.data b.data

/-! ## Data model

The connector file imports its collaborators (`AmundsenConnection` from the
generated schema, `Neo4JConfig`/`Neo4jHelper` from the amundsen client module,
`SourceConnectionException` and `test_connection_steps` from the shared
test-connection module, `NEO4J_AMUNDSEN_USER_QUERY` from the queries module).
Those modules are external to the file under analysis; they are modelled here
from the specification's description of their interfaces. -/

/-- Modelled from the spec: an opaque, non-printable credential wrapper whose
only operation is revealing the value for use in an outbound call
(pydantic SecretStr). -/
structure SecretStr where
  value : String
deriving DecidableEq, Repr

/-- Reveal the secret for use in an outbound call (SecretStr.get_secret_value). -/
def SecretStr.get_secret_value (s : SecretStr) : String := s.value

/-- Modelled from the spec: the redacted rendering of a secret used whenever
the configuration is formatted for diagnostics; a non-empty secret renders as
a fixed mask, an empty secret renders as the empty string. -/
def SecretStr.strRender (s : SecretStr) : String :=
  if s.value = "" then "" else "**********"

/-- The service type tag of the Amundsen connection schema. -/
inductive AmundsenType where
  | Amundsen
deriving DecidableEq, Repr

/-- Enum value accessor (AmundsenType.Amundsen.value = "Amundsen"). -/
def AmundsenType.value : AmundsenType → String
  | .Amundsen => "Amundsen"

/-- The validated Amundsen connection configuration
(generated schema amundsenConnection.AmundsenConnection), restricted to the
fields the connector file reads. -/
structure AmundsenConnection where
  username : String
  password : SecretStr
  hostPort : String
  maxConnectionLifeTime : Nat
  encrypted : Bool
  validateSSL : Bool
  type : AmundsenType
deriving DecidableEq, Repr

/-- Modelled from the spec: the diagnostic rendering of the configuration that
str-formatting an AmundsenConnection produces; credential fields appear only
through the redacted secret rendering. -/
def AmundsenConnection.render (c : AmundsenConnection) : String :=
  "type=" ++ c.type.value ++
  " username=" ++ c.username ++
  " password=" ++ c.password.strRender ++
  " hostPort=" ++ c.hostPort ++
  " maxConnectionLifeTime=" ++ toString c.maxConnectionLifeTime ++
  " encrypted=" ++ toString c.encrypted ++
  " validateSSL=" ++ toString c.validateSSL

/-- The configuration record handed to the Neo4j client helper
(amundsen client module, Neo4JConfig). -/
structure Neo4JConfig where
  username : String
  password : String
  neo4j_url : String
  max_connection_life_time : Nat
  neo4j_encrypted : Bool
  neo4j_validate_ssl : Bool
deriving DecidableEq, Repr

/-- Modelled from the spec: the live connection handle (amundsen client module,
Neo4jHelper). Its observable capability is executing a diagnostic query; the
query executor either yields a result or a failure message. -/
structure Neo4jHelper where
  query_result : String → Except String String

/-- The connector-level error kind raised by the factory
(test-connection module, SourceConnectionException). -/
structure SourceConnectionException where
  msg : String
deriving DecidableEq, Repr

/-- Modelled from the spec: the catalog client handed through to the step
runner; the connector file only forwards it. -/
structure OpenMetadata where
  unit : Unit := ()

/-- Modelled from the spec: the optional automation workflow reference that
selects workflow mode and keys report persistence. -/
structure AutomationWorkflow where
  ref : String
deriving DecidableEq, Repr

/-- Modelled from the spec: the Amundsen user-info diagnostic query text
supplied by the external queries module; its content is opaque here. -/
def NEO4J_AMUNDSEN_USER_QUERY : String := "NEO4J_AMUNDSEN_USER_QUERY"

/-! ## Connection factory (get_connection, source lines 35-51) -/

/-- The Neo4JConfig built inside get_connection from the connection's fields
(source lines 40-47). -/
def neo4j_config (connection : AmundsenConnection) : Neo4JConfig :=
  { username := connection.username
    password := connection.password.get_secret_value
    neo4j_url := connection.hostPort
    max_connection_life_time := connection.maxConnectionLifeTime
    neo4j_encrypted := connection.encrypted
    neo4j_validate_ssl := connection.validateSSL }

/-- The message of the SourceConnectionException raised on a construction
failure (source lines 49-50): the f-string interpolates the diagnostic
rendering of the connection and the cause. -/
def connection_error_message (connection : AmundsenConnection) (exc : String) : String :=
  "Unknown error connecting with " ++ connection.render ++ ": " ++ exc ++ "."

/-- Embedding of get_connection (source lines 35-51). Construction of the
underlying client (Neo4jHelper, an external library call) is passed in as the
oracle mkHelper, which either returns the handle or fails with the cause
message; any such failure is converted to a SourceConnectionException. -/
def get_connection (mkHelper : Neo4JConfig → Except String Neo4jHelper)
    (connection : AmundsenConnection) :
    Except SourceConnectionException Neo4jHelper :=
  match mkHelper (neo4j_config connection) with
  | .ok helper => .ok helper
  | .error exc => .error ⟨connection_error_message connection exc⟩

/-- Resource-accounting variant of get_connection for the leak claim: the
client-construction oracle additionally reports the resources it still holds
on return. Building the Neo4JConfig record itself acquires nothing, so the
factory's held-resource set is exactly the oracle's. -/
def get_connection_res
    (mkHelperR : Neo4JConfig → Except String Neo4jHelper × List Nat)
    (connection : AmundsenConnection) :
    Except SourceConnectionException Neo4jHelper × List Nat :=
  match mkHelperR (neo4j_config connection) with
  | (.ok helper, held) => (.ok helper, held)
  | (.error exc, held) => (.error ⟨connection_error_message connection exc⟩, held)

/-! ## Diagnostic step runner (test-connection module, modelled from the spec) -/

/-- Modelled from the spec: a deferred diagnostic probe, the unapplied
closure binding a client and a query; invoking it executes the query against
the client. -/
structure Probe where
  client : Neo4jHelper
  query : String

/-- Invoke the deferred probe: only here does the client's query executor run. -/
def Probe.invoke (p : Probe) : Except String String :=
  p.client.query_result p.query

/-- Modelled from the spec: per-step outcome status. -/
inductive StepStatus where
  | Succeeded
  | Failed
  | Skipped
deriving DecidableEq, Repr

/-- Modelled from the spec: aggregate report status. -/
inductive OverallStatus where
  | Succeeded
  | Failed
deriving DecidableEq, Repr

/-- Modelled from the spec: a named, ordered diagnostic step with a deferred
probe and an optional declared dependency on another step's success. -/
structure TCStep where
  name : String
  probe : Probe
  dependsOn : Option String := none

/-- Modelled from the spec: the recorded outcome of one step. -/
structure StepResult where
  stepName : String
  status : StepStatus
  message : Option String
deriving DecidableEq, Repr

/-- Modelled from the spec: the report produced by one test run. -/
structure Report where
  serviceIdentifier : String
  orderedResults : List StepResult
  overallStatus : OverallStatus
deriving DecidableEq, Repr

/-- Modelled from the spec: the classified error inline mode raises, carrying
the first failing step's name and message. -/
structure InlineFailure where
  stepName : String
  message : String
deriving DecidableEq, Repr

/-- Modelled from the spec: a step whose declared dependency has a recorded
non-Succeeded result is skipped rather than executed. -/
def depFailed (s : TCStep) (done : List StepResult) : Bool :=
  match s.dependsOn with
  | none => false
  | some d => done.any fun r => decide (r.stepName = d) && decide (r.status ≠ .Succeeded)

/-- Result recorded for a step whose probe is executed. -/
def execResult (s : TCStep) : StepResult :=
  match s.probe.invoke with
  | .ok _ => { stepName := s.name, status := .Succeeded, message := none }
  | .error m => { stepName := s.name, status := .Failed, message := some m }

/-- Result recorded for a step skipped because of a failed dependency. -/
def skipResult (s : TCStep) : StepResult :=
  { stepName := s.name, status := .Skipped, message := none }

/-- Modelled from the spec: workflow-mode execution. Steps run strictly in
declared order, non-fail-fast; a step with a failed declared dependency is
skipped. Returns the ordered step results together with the names of the
steps whose probe was actually invoked. -/
def runSteps (steps : List TCStep) (done : List StepResult) :
    List StepResult × List String :=
  match steps with
  | [] => ([], [])
  | s :: rest =>
    if depFailed s done then
      ((skipResult s) :: (runSteps rest (done ++ [skipResult s])).1,
       (runSteps rest (done ++ [skipResult s])).2)
    else
      ((execResult s) :: (runSteps rest (done ++ [execResult s])).1,
       s.name :: (runSteps rest (done ++ [execResult s])).2)

/-- Modelled from the spec: inline (pre-flight) execution is fail-fast — the
first probe failure aborts with a classified error and later probes are not
invoked. Returns the outcome together with the names of the steps whose probe
was invoked. -/
def runInline (steps : List TCStep) : Except InlineFailure Unit × List String :=
  match steps with
  | [] => (.ok (), [])
  | s :: rest =>
    match s.probe.invoke with
    | .ok _ => ((runInline rest).1, s.name :: (runInline rest).2)
    | .error m => (.error ⟨s.name, m⟩, [s.name])

/-- Modelled from the spec: derived aggregate — Succeeded exactly when the
fold over the results finds every status Succeeded. -/
def mkReport (service_fqn : String) (results : List StepResult) : Report :=
  { serviceIdentifier := service_fqn
    orderedResults := results
    overallStatus :=
      if results.foldl (fun b r => b && decide (r.status = .Succeeded)) true then
        .Succeeded
      else
        .Failed }

/-- Observable outcome of one invocation of the step runner entry point:
the call's return-or-raise outcome, the reports handed to workflow
persistence keyed by workflow reference, and the probe-invocation trace. -/
structure TestRunOutcome where
  outcome : Except InlineFailure Unit
  persisted : List (AutomationWorkflow × Report)
  invoked : List String
deriving Repr

/-- Modelled from the spec: test_connection_steps, the shared step-runner
entry point. With a workflow reference it runs every step, persists the full
report keyed by that reference and returns normally; without one it is the
fail-fast inline gate. -/
def test_connection_steps (metadata : OpenMetadata) (test_fn : List TCStep)
    (service_fqn : String) (automation_workflow : Option AutomationWorkflow) :
    TestRunOutcome :=
  match automation_workflow with
  | some wf =>
    { outcome := .ok ()
      persisted := [(wf, mkReport service_fqn (runSteps test_fn []).1)]
      invoked := (runSteps test_fn []).2 }
  | none =>
    { outcome := (runInline test_fn).1
      persisted := []
      invoked := (runInline test_fn).2 }

/-! ## test_connection (source lines 54-74) -/

/-- The step table built by test_connection (source lines 65-67): a single
entry named CheckAccess whose probe is the deferred application of the
client's execute_query to the Amundsen user query. -/
def test_fn_table (client : Neo4jHelper) : List TCStep :=
  [{ name := "CheckAccess"
     probe := { client := client, query := NEO4J_AMUNDSEN_USER_QUERY }
     dependsOn := none }]

/-- Embedding of test_connection (source lines 54-74): builds the step table
and hands it, the service identifier and the optional workflow reference to
the step runner. -/
def test_connection (metadata : OpenMetadata) (client : Neo4jHelper)
    (service_connection : AmundsenConnection)
    (automation_workflow : Option AutomationWorkflow := none) : TestRunOutcome :=
  test_connection_steps metadata (test_fn_table client)
    service_connection.type.value automation_workflow

/-! ## Concrete fixtures used by witnesses -/

/-- A client whose query executor always succeeds. -/
def sampleHelperOk : Neo4jHelper :=
  { query_result := fun _ => .ok "row" }

/-- A client whose query executor always fails. -/
def sampleHelperFail : Neo4jHelper :=
  { query_result := fun _ => .error "permission denied" }

/-- The scenario configuration from the specification. -/
def sampleConn : AmundsenConnection :=
  { username := "neo4j"
    password := { value := "pw" }
    hostPort := "db.example:7687"
    maxConnectionLifeTime := 50
    encrypted := false
    validateSSL := false
    type := .Amundsen }

/-- A configuration whose secret coincides with a word of the factory's
error-message template. -/
def leakConn : AmundsenConnection :=
  { sampleConn with password := { value := "Unknown" } }

/-- A client construction that always fails. -/
def failBuild : Neo4JConfig → Except String Neo4jHelper :=
  fun _ => .error "boom"

/-- A client construction that always succeeds. -/
def okBuild : Neo4JConfig → Except String Neo4jHelper :=
  fun _ => .ok sampleHelperOk

/-- A resource-reporting client construction that fails having released all
intermediates. -/
def failBuildR : Neo4JConfig → Except String Neo4jHelper × List Nat :=
  fun _ => (.error "down", [])

/-- A diagnostic step whose probe fails. -/
def stepFail : TCStep :=
  { name := "S1", probe := { client := sampleHelperFail, query := "q1" } }

/-- A diagnostic step whose probe succeeds. -/
def stepOk : TCStep :=
  { name := "S2", probe := { client := sampleHelperOk, query := "q2" } }

/-- A concrete workflow reference. -/
def wf0 : AutomationWorkflow := { ref := "wf-1" }

/-- A concrete catalog client. -/
def md0 : OpenMetadata := {}

/-! ## Claims about the connection factory -/

/-- C1: for every connection configuration, if construction of the underlying
client fails with any cause, get_connection raises a SourceConnectionException
whose message includes the cause, never the underlying exception itself; on
non-exceptional construction it returns the constructed client handle. -/
theorem claim_C1_factory_error_classification
    (mkHelper : Neo4JConfig → Except String Neo4jHelper)
    (connection : AmundsenConnection) :
    (∀ exc, mkHelper (neo4j_config connection) = .error exc →
        get_connection mkHelper connection =
          .error { msg := connection_error_message connection exc } ∧
        containsSubstr (connection_error_message connection exc) exc = true) ∧
    (∀ helper, mkHelper (neo4j_config connection) = .ok helper →
        get_connection mkHelper connection = .ok helper) := by
  constructor
  · intro exc h
    refine ⟨?_, ?_⟩
    · unfold get_connection
      rw [h]
    · show containsSubstr
        ((("Unknown error connecting with " ++ connection.render) ++ ": ") ++ exc ++ ".")
        exc = true
      exact containsSubstr_of_parts (("Unknown error connecting with " ++ connection.render) ++ ": ") exc "."
  · intro helper h
    unfold get_connection
    rw [h]

/-- Witness for C1 at the sample configuration with a failing and a
succeeding construction. -/
theorem claim_C1_factory_error_classification_witness :
    (failBuild (neo4j_config sampleConn) = .error "boom" ∧
      get_connection failBuild sampleConn =
        .error { msg := connection_error_message sampleConn "boom" } ∧
      containsSubstr (connection_error_message sampleConn "boom") "boom" = true) ∧
    (okBuild (neo4j_config sampleConn) = .ok sampleHelperOk ∧
      get_connection okBuild sampleConn = .ok sampleHelperOk) := by
  have h1 := (claim_C1_factory_error_classification failBuild sampleConn).1 "boom" rfl
  have h2 := (claim_C1_factory_error_classification okBuild sampleConn).2 sampleHelperOk rfl
  exact ⟨⟨rfl, h1.1, h1.2⟩, rfl, h2⟩

/-- Replace the secret of a configuration, keeping every other field. -/
def AmundsenConnection.withSecret (c : AmundsenConnection) (s : String) :
    AmundsenConnection :=
  { c with password := { value := s } }

/-- C2 counterexample: a configuration whose non-empty secret is the word
"Unknown" — the literal secret value does occur in the raised message, because
it coincides with the fixed message template, even though the rendering of the
configuration is redacted. -/
theorem claim_C2_counterexample :
    leakConn.password.get_secret_value ≠ "" ∧
    get_connection failBuild leakConn =
      .error { msg := connection_error_message leakConn "boom" } ∧
    containsSubstr (connection_error_message leakConn "boom")
      leakConn.password.get_secret_value = true := by
  refine ⟨by decide, rfl, by decide⟩

/-- C2 amended: the message of the SourceConnectionException raised by
get_connection is computed independently of the secret value — replacing a
non-empty secret by any other non-empty secret, with the same construction
cause, yields the identical message, and the configuration rendering embeds
only the fixed mask in place of the secret. The secret can therefore only
appear in the message by coincidence with secret-independent text. -/
theorem claim_C2_secret_noninterference
    (connection : AmundsenConnection) (sa sb exc : String)
    (ha : sa ≠ "") (hb : sb ≠ "") :
    get_connection (fun _ => .error exc) (connection.withSecret sa) =
      .error { msg := connection_error_message (connection.withSecret sb) exc } ∧
    (connection.withSecret sa).password.strRender = "**********" := by
  have hrender : (connection.withSecret sa).render = (connection.withSecret sb).render := by
    unfold AmundsenConnection.render AmundsenConnection.withSecret SecretStr.strRender
    simp [ha, hb]
  constructor
  · unfold get_connection connection_error_message
    rw [hrender]
  · unfold AmundsenConnection.withSecret SecretStr.strRender
    simp [ha]

/-- Witness for the amended C2 at the sample configuration and two distinct
non-empty secrets. -/
theorem claim_C2_secret_noninterference_witness :
    ("pw" ≠ "") ∧ ("hunter2" ≠ "") ∧
    (get_connection (fun _ => .error "boom") (sampleConn.withSecret "pw") =
      .error { msg := connection_error_message (sampleConn.withSecret "hunter2") "boom" } ∧
    (sampleConn.withSecret "pw").password.strRender = "**********") := by
  have h := claim_C2_secret_noninterference sampleConn "pw" "hunter2" "boom"
    (by decide) (by decide)
  exact ⟨by decide, by decide, h⟩

/-! ## Claims about test_connection and the step runner -/

/-- C3: test_connection registers exactly one diagnostic step, named
CheckAccess, whose probe is the deferred execution of the Amundsen user query
against the supplied client, and hands the step table, the service
identifier and the optional workflow reference to the step runner. -/
theorem claim_C3_single_check_access_step
    (metadata : OpenMetadata) (client : Neo4jHelper)
    (service_connection : AmundsenConnection)
    (automation_workflow : Option AutomationWorkflow) :
    test_fn_table client =
      [{ name := "CheckAccess"
         probe := { client := client, query := NEO4J_AMUNDSEN_USER_QUERY }
         dependsOn := none }] ∧
    (Probe.mk client NEO4J_AMUNDSEN_USER_QUERY).invoke =
      client.query_result NEO4J_AMUNDSEN_USER_QUERY ∧
    test_connection metadata client service_connection automation_workflow =
      test_connection_steps metadata (test_fn_table client)
        service_connection.type.value automation_workflow :=
  ⟨rfl, rfl, rfl⟩

/-- Fold of conjunction over results, accumulator generalized. -/
theorem foldl_and_eq_all (p : StepResult → Bool) (l : List StepResult) (b : Bool) :
    l.foldl (fun acc r => acc && p r) b = (b && l.all p) := by
  induction l generalizing b with
  | nil => simp
  | cons x xs ih => simp [List.all_cons, ih, Bool.and_assoc]

/-- The derived aggregate of a report is Succeeded exactly when every recorded
result is Succeeded. -/
theorem mkReport_overall_iff (service_fqn : String) (results : List StepResult) :
    ((mkReport service_fqn results).overallStatus = OverallStatus.Succeeded ↔
      ∀ r ∈ results, r.status = StepStatus.Succeeded) := by
  have hfold := foldl_and_eq_all
    (fun r => decide (r.status = StepStatus.Succeeded)) results true
  unfold mkReport
  simp only [hfold, Bool.true_and]
  cases hb : results.all (fun r => decide (r.status = StepStatus.Succeeded)) with
  | false =>
    simp only [hb, if_false, Bool.false_eq_true]
    constructor
    · intro h
      cases h
    · intro hall
      have : results.all (fun r => decide (r.status = StepStatus.Succeeded)) = true := by
        rw [List.all_eq_true]
        intro r hr
        simpa using hall r hr
      rw [this] at hb
      cases hb
  | true =>
    simp only [hb, if_true]
    constructor
    · intro _ r hr
      have := (List.all_eq_true.mp hb) r hr
      simpa using this
    · intro _
      trivial

/-- A report with any non-Succeeded recorded result has aggregate Failed. -/
theorem mkReport_failed_of_bad (service_fqn : String) (results : List StepResult)
    (r : StepResult) (hr : r ∈ results) (hne : r.status ≠ StepStatus.Succeeded) :
    (mkReport service_fqn results).overallStatus = OverallStatus.Failed := by
  cases hov : (mkReport service_fqn results).overallStatus with
  | Succeeded => exact absurd (((mkReport_overall_iff service_fqn results).mp hov) r hr) hne
  | Failed => rfl

/-- C4: the produced report's overallStatus is Succeeded if and only if every
step result is Succeeded; any Failed or Skipped result forces Failed. -/
theorem claim_C4_overall_status_iff
    (metadata : OpenMetadata) (steps : List TCStep) (service_fqn : String)
    (wf : AutomationWorkflow) :
    ∀ p ∈ (test_connection_steps metadata steps service_fqn (some wf)).persisted,
      ((p.2.overallStatus = OverallStatus.Succeeded ↔
          ∀ r ∈ p.2.orderedResults, r.status = StepStatus.Succeeded) ∧
       (∀ r ∈ p.2.orderedResults, r.status ≠ StepStatus.Succeeded →
          p.2.overallStatus = OverallStatus.Failed)) := by
  intro p hp
  have hp2 : p = (wf, mkReport service_fqn (runSteps steps []).1) := by
    simpa [test_connection_steps] using hp
  subst hp2
  exact ⟨mkReport_overall_iff service_fqn (runSteps steps []).1,
    fun r hr hne => mkReport_failed_of_bad service_fqn (runSteps steps []).1 r hr hne⟩

/-- The report persisted by the witness run for C4. -/
def rep0 : Report := mkReport "Amundsen" (runSteps [stepOk] []).1

/-- Witness for C4 at a one-step run whose probe succeeds. -/
theorem claim_C4_overall_status_iff_witness :
    ((wf0, rep0) ∈ (test_connection_steps md0 [stepOk] "Amundsen" (some wf0)).persisted) ∧
    (((wf0, rep0).2.overallStatus = OverallStatus.Succeeded ↔
        ∀ r ∈ (wf0, rep0).2.orderedResults, r.status = StepStatus.Succeeded) ∧
     (∀ r ∈ (wf0, rep0).2.orderedResults, r.status ≠ StepStatus.Succeeded →
        (wf0, rep0).2.overallStatus = OverallStatus.Failed)) := by
  have hmem : (wf0, rep0) ∈
      (test_connection_steps md0 [stepOk] "Amundsen" (some wf0)).persisted :=
    List.mem_singleton.mpr rfl
  exact ⟨hmem, claim_C4_overall_status_iff md0 [stepOk] "Amundsen" wf0 (wf0, rep0) hmem⟩

/-- C5: in inline mode over steps S1, S2 with S1's probe failing, the call
fails with a classified error carrying S1's name and message, and S2's probe
is never invoked. -/
theorem claim_C5_inline_fail_fast
    (metadata : OpenMetadata) (s1 s2 : TCStep) (service_fqn : String) (m : String)
    (hfail : s1.probe.invoke = .error m) :
    (test_connection_steps metadata [s1, s2] service_fqn none).outcome =
      .error { stepName := s1.name, message := m } ∧
    (test_connection_steps metadata [s1, s2] service_fqn none).invoked = [s1.name] := by
  constructor <;> simp [test_connection_steps, runInline, hfail]

/-- Witness for C5 with a failing first step and a succeeding second step. -/
theorem claim_C5_inline_fail_fast_witness :
    stepFail.probe.invoke = .error "permission denied" ∧
    (test_connection_steps md0 [stepFail, stepOk] "Amundsen" none).outcome =
      .error { stepName := stepFail.name, message := "permission denied" } ∧
    (test_connection_steps md0 [stepFail, stepOk] "Amundsen" none).invoked =
      [stepFail.name] := by
  have h := claim_C5_inline_fail_fast md0 stepFail stepOk "Amundsen"
    "permission denied" rfl
  exact ⟨rfl, h.1, h.2⟩

/-- Every executed or skipped step records its own name. -/
theorem execResult_stepName (s : TCStep) : (execResult s).stepName = s.name := by
  unfold execResult
  cases s.probe.invoke <;> rfl

/-- An executed step's result is Succeeded or Failed, never Skipped. -/
theorem execResult_status (s : TCStep) :
    (execResult s).status = StepStatus.Succeeded ∨
    (execResult s).status = StepStatus.Failed := by
  unfold execResult
  cases s.probe.invoke with
  | ok v => exact Or.inl rfl
  | error m => exact Or.inr rfl

/-- Workflow-mode execution records exactly one result per step, in order. -/
theorem runSteps_names (steps : List TCStep) (done : List StepResult) :
    ((runSteps steps done).1).map StepResult.stepName = steps.map TCStep.name := by
  induction steps generalizing done with
  | nil => rfl
  | cons s rest ih =>
    unfold runSteps
    by_cases h : depFailed s done
    · simp [h, skipResult, ih]
    · simp [h, execResult_stepName, ih]

/-- C6: with an automation workflow reference, the step-runner entry point
always returns normally, and the full report — one result per step, keyed by
the workflow reference — is handed to workflow persistence. -/
theorem claim_C6_workflow_mode_full_report
    (metadata : OpenMetadata) (steps : List TCStep) (service_fqn : String)
    (wf : AutomationWorkflow) :
    (test_connection_steps metadata steps service_fqn (some wf)).outcome = .ok () ∧
    ∃ report,
      (test_connection_steps metadata steps service_fqn (some wf)).persisted =
        [(wf, report)] ∧
      report.orderedResults.map StepResult.stepName = steps.map TCStep.name ∧
      report.serviceIdentifier = service_fqn :=
  ⟨rfl, mkReport service_fqn (runSteps steps []).1, rfl, runSteps_names steps [], rfl⟩

/-- A step with no recorded results yet is never dependency-skipped. -/
theorem depFailed_nil (s : TCStep) : depFailed s [] = false := by
  unfold depFailed
  cases s.dependsOn <;> rfl

/-- A step that declares no dependency is never dependency-skipped. -/
theorem depFailed_none (s : TCStep) (done : List StepResult)
    (h : s.dependsOn = none) : depFailed s done = false := by
  unfold depFailed
  rw [h]

/-- C7: in workflow mode over steps S1, S2 where S1's probe fails and S2
declares no dependency, S2's probe is still attempted: the report records a
Failed result for S1 and a Succeeded-or-Failed (never Skipped) result for S2,
and both probes are invoked. -/
theorem claim_C7_no_dependency_attempted
    (metadata : OpenMetadata) (s1 s2 : TCStep) (service_fqn : String)
    (wf : AutomationWorkflow) (m : String)
    (hfail : s1.probe.invoke = .error m) (hdep : s2.dependsOn = none) :
    ∃ st ms,
      (st = StepStatus.Succeeded ∨ st = StepStatus.Failed) ∧
      ∃ report,
        (test_connection_steps metadata [s1, s2] service_fqn (some wf)).persisted =
          [(wf, report)] ∧
        report.orderedResults =
          [{ stepName := s1.name, status := StepStatus.Failed, message := some m },
           { stepName := s2.name, status := st, message := ms }] ∧
        (test_connection_steps metadata [s1, s2] service_fqn (some wf)).invoked =
          [s1.name, s2.name] := by
  have h1 : depFailed s1 [] = false := depFailed_nil s1
  have he1 : execResult s1 =
      { stepName := s1.name, status := StepStatus.Failed, message := some m } := by
    unfold execResult
    rw [hfail]
  have h2 : depFailed s2
      [{ stepName := s1.name, status := StepStatus.Failed, message := some m }] = false :=
    depFailed_none s2 _ hdep
  cases hi : s2.probe.invoke with
  | ok v =>
    have he2 : execResult s2 =
        { stepName := s2.name, status := StepStatus.Succeeded, message := none } := by
      unfold execResult
      rw [hi]
    refine ⟨StepStatus.Succeeded, none, Or.inl rfl,
      mkReport service_fqn (runSteps [s1, s2] []).1, rfl, ?_, ?_⟩
    · show (runSteps [s1, s2] []).1 = _
      simp [runSteps, h1, h2, he1, he2]
    · show (runSteps [s1, s2] []).2 = _
      simp [runSteps, h1, h2, he1]
  | error me =>
    have he2 : execResult s2 =
        { stepName := s2.name, status := StepStatus.Failed, message := some me } := by
      unfold execResult
      rw [hi]
    refine ⟨StepStatus.Failed, some me, Or.inr rfl,
      mkReport service_fqn (runSteps [s1, s2] []).1, rfl, ?_, ?_⟩
    · show (runSteps [s1, s2] []).1 = _
      simp [runSteps, h1, h2, he1, he2]
    · show (runSteps [s1, s2] []).2 = _
      simp [runSteps, h1, h2, he1]

/-- Witness for C7 with a failing first step and an independent succeeding
second step. -/
theorem claim_C7_no_dependency_attempted_witness :
    stepFail.probe.invoke = .error "permission denied" ∧
    stepOk.dependsOn = none ∧
    ∃ st ms,
      (st = StepStatus.Succeeded ∨ st = StepStatus.Failed) ∧
      ∃ report,
        (test_connection_steps md0 [stepFail, stepOk] "Amundsen" (some wf0)).persisted =
          [(wf0, report)] ∧
        report.orderedResults =
          [{ stepName := stepFail.name, status := StepStatus.Failed,
             message := some "permission denied" },
           { stepName := stepOk.name, status := st, message := ms }] ∧
        (test_connection_steps md0 [stepFail, stepOk] "Amundsen" (some wf0)).invoked =
          [stepFail.name, stepOk.name] :=
  ⟨rfl, rfl, claim_C7_no_dependency_attempted md0 stepFail stepOk "Amundsen" wf0
    "permission denied" rfl rfl⟩

/-- C8: when client construction fails having released its intermediate
resources (the collaborator contract the spec states), the factory propagates
the SourceConnectionException holding no resource of its own and returning no
partially-usable handle: building the Neo4JConfig record acquires nothing, so
the held-resource set of the failed call is empty. -/
theorem claim_C8_no_leak_on_failure
    (mkHelperR : Neo4JConfig → Except String Neo4jHelper × List Nat)
    (connection : AmundsenConnection) (exc : String) (held : List Nat)
    (hfail : mkHelperR (neo4j_config connection) = (.error exc, held))
    (hreleased : held = []) :
    get_connection_res mkHelperR connection =
      (.error { msg := connection_error_message connection exc }, []) := by
  unfold get_connection_res
  rw [hfail, hreleased]

/-- Witness for C8 with a construction that fails with all intermediates
released. -/
theorem claim_C8_no_leak_on_failure_witness :
    failBuildR (neo4j_config sampleConn) = (.error "down", []) ∧
    get_connection_res failBuildR sampleConn =
      (.error { msg := connection_error_message sampleConn "down" }, []) :=
  ⟨rfl, claim_C8_no_leak_on_failure failBuildR sampleConn "down" [] rfl rfl⟩

/-- The field mapping the specification states for the client build, written
from the spec's words: username to username, the revealed secret to password,
hostPort to the client URL, maxConnectionLifeTime to the connection lifetime,
encrypted to the TLS flag, validateSSL to the TLS-validation flag. -/
def spec_field_mapping (connection : AmundsenConnection) : Neo4JConfig :=
  { username := connection.username
    password := connection.password.get_secret_value
    neo4j_url := connection.hostPort
    max_connection_life_time := connection.maxConnectionLifeTime
    neo4j_encrypted := connection.encrypted
    neo4j_validate_ssl := connection.validateSSL }

/-- C9: on success, the returned client is exactly the one built from the
spec's field mapping, the source's config builder coincides with that mapping,
and no other configuration field influences the success result. -/
theorem claim_C9_success_field_mapping
    (mkHelper : Neo4JConfig → Except String Neo4jHelper)
    (connection : AmundsenConnection) :
    (∀ helper, get_connection mkHelper connection = .ok helper →
        mkHelper (spec_field_mapping connection) = .ok helper) ∧
    neo4j_config connection = spec_field_mapping connection ∧
    (∀ c2 : AmundsenConnection,
        connection.username = c2.username →
        connection.password.get_secret_value = c2.password.get_secret_value →
        connection.hostPort = c2.hostPort →
        connection.maxConnectionLifeTime = c2.maxConnectionLifeTime →
        connection.encrypted = c2.encrypted →
        connection.validateSSL = c2.validateSSL →
        ∀ helper,
          (get_connection mkHelper connection = .ok helper ↔
            get_connection mkHelper c2 = .ok helper)) := by
  refine ⟨?_, rfl, ?_⟩
  · intro helper h
    unfold get_connection at h
    cases hm : mkHelper (neo4j_config connection) with
    | ok helper2 =>
      rw [hm] at h
      cases h
      exact hm
    | error exc =>
      rw [hm] at h
      cases h
  · intro c2 hu hp hh hl he hv helper
    have hcfg : neo4j_config connection = neo4j_config c2 := by
      unfold neo4j_config
      rw [hu, hp, hh, hl, he, hv]
    unfold get_connection
    rw [hcfg]
    cases mkHelper (neo4j_config c2) with
    | ok helper2 => exact Iff.rfl
    | error exc => simp

/-- Witness for C9 at the sample configuration with a succeeding
construction. -/
theorem claim_C9_success_field_mapping_witness :
    get_connection okBuild sampleConn = .ok sampleHelperOk ∧
    okBuild (spec_field_mapping sampleConn) = .ok sampleHelperOk ∧
    (sampleConn.username = sampleConn.username) ∧
    (get_connection okBuild sampleConn = .ok sampleHelperOk ↔
      get_connection okBuild sampleConn = .ok sampleHelperOk) := by
  have h := claim_C9_success_field_mapping okBuild sampleConn
  exact ⟨rfl, h.1 sampleHelperOk rfl, rfl,
    h.2.2 sampleConn rfl rfl rfl rfl rfl rfl sampleHelperOk⟩

/-- C10: the step table is built without executing any probe — its shape is
the same for every client, each entry is the deferred pairing of the client
with the user query, invoking that closure is exactly one call of the client's
query executor on the user query, and the probe invocations of a
test_connection run are exactly those of the step runner on that table. -/
theorem claim_C10_deferred_probe (client : Neo4jHelper) :
    ((test_fn_table client).map fun s => (s.name, s.probe.query, s.dependsOn)) =
      [("CheckAccess", NEO4J_AMUNDSEN_USER_QUERY, none)] ∧
    (∀ s ∈ test_fn_table client,
        s.probe.invoke = client.query_result NEO4J_AMUNDSEN_USER_QUERY) ∧
    (∀ metadata service_connection automation_workflow,
        (test_connection metadata client service_connection automation_workflow).invoked =
          (test_connection_steps metadata (test_fn_table client)
            service_connection.type.value automation_workflow).invoked) := by
  refine ⟨rfl, ?_, fun _ _ _ => rfl⟩
  intro s hs
  have hs2 : s = { name := "CheckAccess"
                   probe := { client := client, query := NEO4J_AMUNDSEN_USER_QUERY }
                   dependsOn := none } := List.mem_singleton.mp hs
  subst hs2
  rfl

/-- Witness for C10 at a concrete client, discharging the membership
hypothesis at the single CheckAccess entry. -/
theorem claim_C10_deferred_probe_witness :
    (({ name := "CheckAccess"
        probe := { client := sampleHelperOk, query := NEO4J_AMUNDSEN_USER_QUERY }
        dependsOn := none } : TCStep) ∈ test_fn_table sampleHelperOk) ∧
    ({ client := sampleHelperOk, query := NEO4J_AMUNDSEN_USER_QUERY } : Probe).invoke =
      sampleHelperOk.query_result NEO4J_AMUNDSEN_USER_QUERY := by
  have h := (claim_C10_deferred_probe sampleHelperOk).2.1 _ (List.mem_singleton.mpr rfl)
  exact ⟨List.mem_singleton.mpr rfl, h⟩
